import Mathlib

/-!
Verification of the invocation pipeline of the poise command framework.

Shallow embedding of the reply delivery code (src/reply/send_reply.rs), the
slash schema generation (macros/src/command/slash.rs and src/structs/command.rs),
the integer autocomplete extraction (src/slash/argument/autocomplete/autocompletable.rs),
and the admission check chain.
-/

namespace Poise

/-! ## Transport operations (spec section 6: external interfaces) -/

/-- Transport operations offered by the chat platform client. -/
inductive TransportOp where
  | createInitialInteractionResponse
  | createFollowupMessage
  | sendMessage (channelId : Nat)
  | editMessage (messageId : Nat)
deriving DecidableEq, Repr

/-! ## Interaction replies: _send_application_reply (src/reply/send_reply.rs) -/

/-- Kind of interaction held by an ApplicationContext
(ApplicationCommandOrAutocompleteInteraction in the source). -/
inductive InteractionKind where
  | applicationCommand
  | autocomplete
deriving DecidableEq, Repr

/-- Result of one call to the application reply function: the transport calls it
performed, whether it returned Ok, and the value of the per-invocation
has_sent_initial_response flag afterwards. -/
structure AppReplyResult where
  calls : List TransportOp
  ok : Bool
  hasSentInitialResponse : Bool
deriving DecidableEq, Repr

/-- Embedding of _send_application_reply (src/reply/send_reply.rs lines 67 to 113).
send_reply and say_reply delegate here for application contexts.
An autocomplete interaction returns Ok immediately with no transport call.
Otherwise the has_sent_initial_response flag is loaded; if it is set, a followup
message is created; if not, the initial interaction response is created and, only
when that call succeeded, the flag is stored as true (a transport error propagates
out before the store). The transport outcome is modelled by the transportOk input. -/
def sendApplicationReply (kind : InteractionKind) (hasSentInitialResponse : Bool)
    (transportOk : Bool) : AppReplyResult :=
  match kind with
  | .autocomplete => ⟨[], true, hasSentInitialResponse⟩
  | .applicationCommand =>
    if hasSentInitialResponse then
      ⟨[TransportOp.createFollowupMessage], transportOk, hasSentInitialResponse⟩
    else if transportOk then
      ⟨[TransportOp.createInitialInteractionResponse], true, true⟩
    else
      ⟨[TransportOp.createInitialInteractionResponse], false, hasSentInitialResponse⟩

/-- A sequence of reply calls on one invocation, threading the
has_sent_initial_response flag; each entry of oks is the transport outcome of
the corresponding send. Returns the per-reply transport calls and the final flag. -/
def runAppReplies (flag : Bool) (oks : List Bool) : List (List TransportOp) × Bool :=
  match oks with
  | [] => ([], flag)
  | ok :: rest =>
    let r := sendApplicationReply .applicationCommand flag ok
    let (calls, final) := runAppReplies r.hasSentInitialResponse rest
    (r.calls :: calls, final)

theorem runAppReplies_true_all_followup (n : Nat) :
    (runAppReplies true (List.replicate n true)).1
      = List.replicate n [TransportOp.createFollowupMessage] := by
  induction n with
  | zero => rfl
  | succ k ih =>
    simp only [List.replicate, runAppReplies, sendApplicationReply]
    simp only [if_pos rfl] at *
    simpa [runAppReplies] using congrArg (List.cons [TransportOp.createFollowupMessage]) ih

/-- C1: For an application-command (non-autocomplete) invocation whose
has_sent_initial_response flag starts unset, the first reply sent through
send_reply/say_reply performs the create-initial-interaction-response operation and
every subsequent reply performs create-followup-message; the flag becomes true
exactly when the initial send succeeded (a failed initial send leaves it false),
and once set it stays set while further replies take the follow-up path. -/
theorem claim_C1_first_reply_initial_then_followups :
    (∀ n : Nat,
      (runAppReplies false (List.replicate (n + 1) true)).1
        = [TransportOp.createInitialInteractionResponse]
            :: List.replicate n [TransportOp.createFollowupMessage])
    ∧ (∀ transportOk : Bool,
        (sendApplicationReply .applicationCommand false transportOk).hasSentInitialResponse
          = transportOk)
    ∧ (∀ transportOk : Bool,
        (sendApplicationReply .applicationCommand true transportOk).calls
          = [TransportOp.createFollowupMessage]
        ∧ (sendApplicationReply .applicationCommand true transportOk).hasSentInitialResponse
          = true) := by
  refine ⟨fun n => ?_, fun ok => by cases ok <;> rfl, fun ok => by cases ok <;> exact ⟨rfl, rfl⟩⟩
  have h := runAppReplies_true_all_followup n
  simp only [List.replicate, runAppReplies, sendApplicationReply, if_pos, if_neg]
  simpa [runAppReplies, sendApplicationReply] using h

/-- C7: a reply attempted from an autocomplete-mode invocation is a no-op: no
transport call is performed, the result is Ok (not an error), and the
has_sent_initial_response flag is left unchanged. -/
theorem claim_C7_autocomplete_reply_noop :
    ∀ (flag transportOk : Bool),
      sendApplicationReply .autocomplete flag transportOk
        = ⟨[], true, flag⟩ := by
  intro flag transportOk
  rfl

/-! ## Racing replies on one invocation (spec section 5)

The reply function is modelled as three atomic steps on the shared
has_sent_initial_response flag: load the flag; decide the path and perform the
send; for the initial path, store true. Two tasks (two concurrent reply calls
from the same invocation) interleave their steps under sequential consistency. -/

/-- Which reply path a racing task chose. -/
inductive ReplyPath where
  | initial
  | followup
deriving DecidableEq, Repr

/-- Local state of one reply task. pc 0: about to load; pc 1: loaded, about to
decide and send; pc 2: initial send done, about to store; pc 3: done. -/
structure ReplyTask where
  pc : Nat
  loaded : Bool
  chosen : Option ReplyPath
deriving DecidableEq, Repr

/-- Shared state: the atomic flag plus the two racing reply tasks. -/
structure RaceState where
  flag : Bool
  taskA : ReplyTask
  taskB : ReplyTask
deriving DecidableEq, Repr

/-- One atomic step of a reply task against the shared flag, returning the new
flag and task state. Mirrors _send_application_reply: load with SeqCst; if the
loaded value is true choose the follow-up path; otherwise choose the initial
path (perform the initial send) and afterwards store true with SeqCst. -/
def stepReplyTask (flag : Bool) (t : ReplyTask) : Bool × ReplyTask :=
  match t.pc with
  | 0 => (flag, { t with pc := 1, loaded := flag })
  | 1 =>
    if t.loaded then (flag, { t with pc := 3, chosen := some ReplyPath.followup })
    else (flag, { t with pc := 2, chosen := some ReplyPath.initial })
  | 2 => (true, { t with pc := 3 })
  | _ => (flag, t)

/-- Scheduler step: false runs task A, true runs task B. -/
def stepRace (s : RaceState) (who : Bool) : RaceState :=
  if who then
    let p := stepReplyTask s.flag s.taskB
    { s with flag := p.1, taskB := p.2 }
  else
    let p := stepReplyTask s.flag s.taskA
    { s with flag := p.1, taskA := p.2 }

/-- Run a schedule, i.e. an interleaving of the two tasks. -/
def runRace (s : RaceState) : List Bool → RaceState
  | [] => s
  | w :: ws => runRace (stepRace s w) ws

/-- A reply task that has not started yet. -/
def freshTask : ReplyTask := ⟨0, false, none⟩

/-- Fresh invocation with the flag unset and two reply tasks about to run. -/
def initRace : RaceState := ⟨false, freshTask, freshTask⟩

/-- Invariant used for the amended racing claim: the flag is set, and task B is
either not started, or has loaded the set flag, or has finished on the
follow-up path. -/
def lateTaskInv (s : RaceState) : Prop :=
  s.flag = true
    ∧ (s.taskB.pc = 0
        ∨ (s.taskB.pc = 1 ∧ s.taskB.loaded = true)
        ∨ (s.taskB.pc = 3 ∧ s.taskB.chosen = some ReplyPath.followup))

theorem lateTaskInv_step (s : RaceState) (who : Bool) (h : lateTaskInv s) :
    lateTaskInv (stepRace s who) := by
  obtain ⟨hflag, hb⟩ := h
  cases who with
  | false =>
    refine ⟨?_, ?_⟩
    · simp only [stepRace, if_neg Bool.false_ne_true, stepReplyTask]
      rcases h4 : s.taskA.pc with _ | _ | _ | k <;> simp [hflag]
      split <;> simp [hflag]
    · simpa [stepRace] using hb
  | true =>
    rcases hb with h0 | ⟨h1, hl⟩ | ⟨h3, hc⟩
    · refine ⟨?_, Or.inr (Or.inl ?_)⟩ <;>
        simp [stepRace, stepReplyTask, h0, hflag]
    · refine ⟨?_, Or.inr (Or.inr ?_)⟩ <;>
        simp [stepRace, stepReplyTask, h1, hl, hflag]
    · refine ⟨?_, Or.inr (Or.inr ?_)⟩ <;>
        simp [stepRace, stepReplyTask, h3, hc, hflag]

theorem lateTaskInv_run (sched : List Bool) (s : RaceState) (h : lateTaskInv s) :
    lateTaskInv (runRace s sched) := by
  induction sched generalizing s with
  | nil => exact h
  | cons w ws ih => exact ih _ (lateTaskInv_step s w h)

/-- C6 counterexample: the flag discipline of _send_application_reply (load the
flag, send, then store) does not prevent two overlapping replies of the same
invocation from both choosing the initial-response path. In the interleaving
where both tasks load the flag before either stores it, both observe false and
both choose initial. -/
theorem claim_C6_counterexample_both_initial :
    (runRace initRace [false, true, false, true]).taskA.chosen = some ReplyPath.initial
      ∧ (runRace initRace [false, true, false, true]).taskB.chosen
          = some ReplyPath.initial := by
  decide

/-- C6 amended: the SeqCst load-then-store discipline guarantees only that a
second reply whose flag load happens after a completed successful initial send
(i.e. after the store) takes the follow-up path: from any state in which the
flag is already set, a reply task that has not started yet and completes under
any schedule chooses follow-up. Two replies that overlap (both loading before
either store) can both choose initial, as the counterexample shows. -/
theorem claim_C6_amended_late_reply_uses_followup :
    ∀ (sched : List Bool) (s : RaceState),
      s.flag = true → s.taskB.pc = 0 →
      (runRace s sched).taskB.pc = 3 →
      (runRace s sched).taskB.chosen = some ReplyPath.followup := by
  intro sched s hflag hpc hdone
  have h := lateTaskInv_run sched s ⟨hflag, Or.inl hpc⟩
  rcases h.2 with h0 | ⟨h1, _⟩ | ⟨_, hc⟩
  · rw [hdone] at h0; cases h0
  · rw [hdone] at h1; cases h1
  · exact hc

/-- Witness for the amended C6 claim at a concrete state and schedule. -/
theorem claim_C6_amended_late_reply_uses_followup_witness :
    (runRace ⟨true, freshTask, freshTask⟩ [true, true]).taskB.chosen
      = some ReplyPath.followup :=
  claim_C6_amended_late_reply_uses_followup [true, true] ⟨true, freshTask, freshTask⟩
    rfl rfl (by decide)

/-! ## Prefix replies and the edit tracker (src/reply/send_reply.rs lines 130 to 193) -/

/-- Mutable surface of a bot message tracked by the edit tracker: the spec names
content, embeds and interactive components as the mutable surface. Embeds and
components are kept abstract as lists of payload strings. -/
structure Message where
  id : Nat
  content : String
  embeds : List String
  components : List String
deriving DecidableEq, Repr

/-- The reply data built by the user callback (CreateReply in the source),
restricted to the surface relevant for prefix sends and edits. -/
structure CreateReply where
  content : Option String
  embeds : List String
  components : Option (List String)
deriving DecidableEq, Repr

/-- An EditMessage builder: fields that were not set keep the previous value of
the edited message, set fields replace it. -/
structure EditBuilder where
  content : Option String
  embeds : Option (List String)
  components : Option (List String)
deriving DecidableEq, Repr

/-- The empty edit builder (no field set). -/
def EditBuilder.empty : EditBuilder := ⟨none, none, none⟩

/-- Apply an edit builder to a message: set fields replace, unset fields keep. -/
def applyEditBuilder (m : Message) (b : EditBuilder) : Message :=
  { id := m.id
    content := b.content.getD m.content
    embeds := b.embeds.getD m.embeds
    components := b.components.getD m.components }

/-- Modelled from the spec: CreateReply.to_prefix_edit is not among the source
files; per the spec the new reply content is applied onto the edit builder,
replacing the fields the reply provides. -/
def to_prefix_edit (r : CreateReply) (b : EditBuilder) : EditBuilder :=
  { content := match r.content with | some c => some c | none => b.content
    embeds := if r.embeds.isEmpty then b.embeds else some r.embeds
    components := match r.components with | some c => some c | none => b.components }

/-- Modelled from the spec: CreateReply.to_prefix (building a fresh message) is
not among the source files; the new message carries exactly the reply surface. -/
def to_prefix_message (r : CreateReply) (newId : Nat) : Message :=
  { id := newId
    content := r.content.getD ""
    embeds := r.embeds
    components := r.components.getD [] }

/-- Modelled from the spec: EditTracker.find_bot_response is not among the source
files; the tracker keys at most one bot response by the triggering message id. -/
def find_bot_response (tracker : List (Nat × Message)) (msgId : Nat) :
    Option Message :=
  (tracker.find? (fun e => e.1 == msgId)).map (fun e => e.2)

/-- Modelled from the spec: EditTracker.set_bot_response is not among the source
files; it updates the entry for the trigger message in place, or inserts one. -/
def set_bot_response (tracker : List (Nat × Message)) (msgId : Nat)
    (response : Message) : List (Nat × Message) :=
  if (tracker.find? (fun e => e.1 == msgId)).isSome then
    tracker.map (fun e => if e.1 == msgId then (msgId, response) else e)
  else
    (msgId, response) :: tracker

/-- Result of a prefix reply: the resulting bot response message, the transport
calls performed, and the edit tracker afterwards (none when no tracker is
configured in the framework options). -/
structure PrefixReplyResult where
  response : Message
  calls : List TransportOp
  tracker : Option (List (Nat × Message))
deriving DecidableEq, Repr

/-- Embedding of _send_prefix_reply (src/reply/send_reply.rs lines 130 to 193).
lock_edit_tracker yields the tracker only when the command has reuse_response
set and a tracker is configured. When it holds a bot response for the
triggering message id, that response is edited in place: the edit builder first
clears content, embeds and components (the source comment explicitly resets the
message so no leftovers of the previous message remain) and then applies the
new reply; afterwards the tracker entry is refreshed. Otherwise a new message
is sent and, when tracking is enabled, inserted into the tracker. -/
def send_prefix_reply (reuse_response : Bool)
    (tracker : Option (List (Nat × Message)))
    (msgId channelId freshId : Nat) (reply : CreateReply) : PrefixReplyResult :=
  let lockedTracker : Option (List (Nat × Message)) :=
    if reuse_response then tracker else none
  let existingResponse : Option Message :=
    lockedTracker.bind (fun t => find_bot_response t msgId)
  match existingResponse with
  | some response =>
    let b : EditBuilder := { content := some "", embeds := some [], components := some [] }
    let b := to_prefix_edit reply b
    let edited := applyEditBuilder response b
    { response := edited
      calls := [TransportOp.editMessage response.id]
      tracker :=
        if reuse_response then tracker.map (fun t => set_bot_response t msgId edited)
        else tracker }
  | none =>
    let newResponse := to_prefix_message reply freshId
    { response := newResponse
      calls := [TransportOp.sendMessage channelId]
      tracker :=
        if reuse_response then tracker.map (fun t => set_bot_response t msgId newResponse)
        else tracker }

/-- C2: for a prefix invocation with reuse_response enabled and an edit tracker
configured, if the tracker holds a bot response R for the triggering message,
the reply edits exactly that message (one editMessage call on the identity of R,
no sendMessage), the edited surface is determined by the new reply alone with
content, embeds and components reset first (so nothing of the previous reply
carries over), and the tracker entry is refreshed to the edited response. -/
theorem claim_C2_edit_tracked_reply_resets_and_edits :
    ∀ (tracker : List (Nat × Message)) (msgId channelId freshId : Nat)
      (R : Message) (reply : CreateReply),
      find_bot_response tracker msgId = some R →
      send_prefix_reply true (some tracker) msgId channelId freshId reply
        = { response :=
              { id := R.id
                content := reply.content.getD ""
                embeds := reply.embeds
                components := reply.components.getD [] }
            calls := [TransportOp.editMessage R.id]
            tracker := some (set_bot_response tracker msgId
              { id := R.id
                content := reply.content.getD ""
                embeds := reply.embeds
                components := reply.components.getD [] }) } := by
  intro tracker msgId channelId freshId R reply h
  cases reply with
  | mk c e comp =>
    cases c <;> cases comp <;> cases e <;>
      simp [send_prefix_reply, h, to_prefix_edit, applyEditBuilder]

/-- Witness for C2 at a concrete tracker, trigger message and reply. -/
theorem claim_C2_edit_tracked_reply_resets_and_edits_witness :
    send_prefix_reply true (some [(5, ⟨77, "old", ["e1"], ["c1"]⟩)]) 5 9 40
        ⟨some "new", [], none⟩
      = { response := ⟨77, "new", [], []⟩
          calls := [TransportOp.editMessage 77]
          tracker := some (set_bot_response [(5, ⟨77, "old", ["e1"], ["c1"]⟩)] 5
            ⟨77, "new", [], []⟩) } :=
  claim_C2_edit_tracked_reply_resets_and_edits
    [(5, ⟨77, "old", ["e1"], ["c1"]⟩)] 5 9 40 ⟨77, "old", ["e1"], ["c1"]⟩
    ⟨some "new", [], none⟩ (by decide)

/-! ## Integer extraction (src/slash/argument/autocomplete/autocompletable.rs) -/

/-- Error type of slash argument extraction (SlashArgError in the source). -/
inductive SlashArgError where
  | CommandStructureMismatch (msg : String)
  | IntegerOutOfBounds
  | Parse (msg : String)
deriving DecidableEq, Repr

/-- Smallest value of the 64-bit signed transport integer. -/
def i64Min : Int := -(2 ^ 63)

/-- Largest value of the 64-bit signed transport integer. -/
def i64Max : Int := 2 ^ 63 - 1

/-- JSON values as far as the extraction claims need them: strings, numbers
with an integral value (tracked exactly), non-integral numbers, and the rest. -/
inductive JsonValue where
  | str (s : String)
  | intNum (n : Int)
  | floatNum
  | other
deriving DecidableEq, Repr

/-- Semantics of serde_json Value::as_i64: a JSON integer literal is stored as
u64 when it is nonnegative and at most u64::MAX, as i64 when it is negative and
at least i64::MIN, and as f64 otherwise; as_i64 returns the value exactly when
the stored number fits in i64 and never for the f64 representation. Net effect
for an integral number n: some n when i64Min <= n <= i64Max, else none. -/
def JsonValue.as_i64 : JsonValue → Option Int
  | .intNum n => if i64Min ≤ n ∧ n ≤ i64Max then some n else none
  | _ => none

/-- A bounded integer target type, given by its value range; TryFrom of i64
succeeds exactly when the value lies in the range. -/
structure IntTargetType where
  lo : Int
  hi : Int
deriving DecidableEq, Repr

/-- TryFrom of i64 into the bounded target: the exact value when in range. -/
def tryFromI64 (T : IntTargetType) (n : Int) : Option Int :=
  if T.lo ≤ n ∧ n ≤ T.hi then some n else none

/-- Embedding of the integer implementation of AutocompletableHack extract
(autocompletable.rs lines 59 to 77): value.as_i64() with a
CommandStructureMismatch error when it fails, then try_into with an
IntegerOutOfBounds error when the conversion fails. -/
def extract_partial_int (T : IntTargetType) (v : JsonValue) :
    Except SlashArgError Int :=
  match v.as_i64 with
  | none => Except.error (SlashArgError.CommandStructureMismatch "expected integer")
  | some n =>
    match tryFromI64 T n with
    | some m => Except.ok m
    | none => Except.error SlashArgError.IntegerOutOfBounds

/-- The i32 target range, an example of a bounded integer parameter type. -/
def i32Target : IntTargetType := ⟨-(2 ^ 31), 2 ^ 31 - 1⟩

/-- C4 counterexample: the interaction integer option value
99999999999999999999 does not fit the 64-bit transport integer at all, so
extraction fails with CommandStructureMismatch (the as_i64 step fails first),
not with IntegerOutOfBounds as the claim states. -/
theorem claim_C4_counterexample_huge_value_structure_mismatch :
    extract_partial_int i32Target (JsonValue.intNum 99999999999999999999)
        = Except.error (SlashArgError.CommandStructureMismatch "expected integer")
      ∧ extract_partial_int i32Target (JsonValue.intNum 99999999999999999999)
          ≠ Except.error SlashArgError.IntegerOutOfBounds := by
  refine ⟨rfl, fun h => ?_⟩
  have h2 : SlashArgError.CommandStructureMismatch "expected integer"
      = SlashArgError.IntegerOutOfBounds := Except.error.inj h
  cases h2

/-- C4 amended: an in-range value is extracted exactly (never truncated); a
value that fits the 64-bit transport integer but lies outside the bounded
target range fails with the distinct error IntegerOutOfBounds; a value outside
even the 64-bit range (such as 99999999999999999999) fails with
CommandStructureMismatch. In every out-of-range case the result is an error,
never a silently truncated value. -/
theorem claim_C4_amended_out_of_range_is_distinct_error :
    ∀ (T : IntTargetType) (n : Int),
      (i64Min ≤ n → n ≤ i64Max → T.lo ≤ n → n ≤ T.hi →
        extract_partial_int T (JsonValue.intNum n) = Except.ok n)
      ∧ (i64Min ≤ n → n ≤ i64Max → ¬(T.lo ≤ n ∧ n ≤ T.hi) →
          extract_partial_int T (JsonValue.intNum n)
            = Except.error SlashArgError.IntegerOutOfBounds)
      ∧ (¬(i64Min ≤ n ∧ n ≤ i64Max) →
          extract_partial_int T (JsonValue.intNum n)
            = Except.error (SlashArgError.CommandStructureMismatch "expected integer")) := by
  intro T n
  refine ⟨fun h1 h2 h3 h4 => ?_, fun h1 h2 h3 => ?_, fun h => ?_⟩ <;>
    simp [extract_partial_int, JsonValue.as_i64, tryFromI64, *]

/-- Witness for the amended C4 claim: 300 is inside the 64-bit range but outside
the byte range 0 to 255, so extraction yields IntegerOutOfBounds; 7 is inside
both and is extracted exactly. -/
theorem claim_C4_amended_out_of_range_is_distinct_error_witness :
    extract_partial_int ⟨0, 255⟩ (JsonValue.intNum 300)
        = Except.error SlashArgError.IntegerOutOfBounds
      ∧ extract_partial_int ⟨0, 255⟩ (JsonValue.intNum 7) = Except.ok 7 :=
  ⟨(claim_C4_amended_out_of_range_is_distinct_error ⟨0, 255⟩ 300).2.1
      (by decide) (by decide) (by decide),
    (claim_C4_amended_out_of_range_is_distinct_error ⟨0, 255⟩ 7).1
      (by decide) (by decide) (by decide) (by decide)⟩

/-! ## Slash parameter ordering (macros/src/command/slash.rs generate_slash_parameters) -/

/-- A declared slash command parameter as the macro sees it: its name and the
shape of its declared type (wrapped in Option, wrapped in Vec, or a flag). -/
structure SlashParamSpec where
  name : String
  wrappedInOption : Bool
  wrappedInVec : Bool
  flag : Bool
deriving DecidableEq, Repr

/-- Whether the generated option is required, following
generate_slash_parameters: extracting an Option or Vec type parameter makes it
not required, and a flag parameter is forced to not required afterwards. -/
def paramRequired (p : SlashParamSpec) : Bool :=
  !(p.wrappedInOption || p.wrappedInVec) && !p.flag

/-- The sort key of the source: sort_by_key uses the negated required flag, so
required parameters (key false) come first. -/
def notRequiredKey (p : SlashParamSpec) : Bool := !paramRequired p

/-- Order used for sorting parameters, comparing the keys of sort_by_key. -/
def slashParamOrder (a b : SlashParamSpec) : Prop :=
  notRequiredKey a ≤ notRequiredKey b

instance : DecidableRel slashParamOrder := fun a b =>
  inferInstanceAs (Decidable (notRequiredKey a ≤ notRequiredKey b))

/-- Embedding of the parameter ordering of generate_slash_parameters
(macros/src/command/slash.rs lines 116 to 121): Vec sort_by_key is a stable
sort, and a stable sort by a two-valued key is uniquely determined by key and
input order; it is modelled here by insertion sort with the non-strict key
order, which is stable. -/
def generate_slash_parameters (params : List SlashParamSpec) :
    List SlashParamSpec :=
  List.insertionSort slashParamOrder params

theorem orderedInsert_append_of_not (p : SlashParamSpec) :
    ∀ (A B : List SlashParamSpec), (∀ x ∈ A, ¬ slashParamOrder p x) →
      List.orderedInsert slashParamOrder p (A ++ B)
        = A ++ List.orderedInsert slashParamOrder p B := by
  intro A
  induction A with
  | nil => intro B h; rfl
  | cons a A ih =>
    intro B h
    have ha : ¬ slashParamOrder p a := h a (List.mem_cons_self a A)
    simp only [List.cons_append, List.orderedInsert, if_neg ha, List.append_eq]
    rw [ih B (fun x hx => h x (List.mem_cons_of_mem a hx))]

theorem orderedInsert_cons_of_le (p : SlashParamSpec) (L : List SlashParamSpec)
    (h : ∀ x ∈ L, slashParamOrder p x) :
    List.orderedInsert slashParamOrder p L = p :: L := by
  cases L with
  | nil => rfl
  | cons y rest =>
    exact List.orderedInsert_of_le slashParamOrder rest
      (h y (List.mem_cons_self y rest))

theorem generate_slash_parameters_partition (params : List SlashParamSpec) :
    generate_slash_parameters params
      = params.filter (fun q => paramRequired q)
          ++ params.filter (fun q => !paramRequired q) := by
  induction params with
  | nil => rfl
  | cons p l ih =>
    simp only [generate_slash_parameters, List.insertionSort] at *
    rw [ih]
    by_cases hp : paramRequired p = true
    · rw [orderedInsert_cons_of_le p _ (fun x _ => ?_)]
      · simp [List.filter_cons, hp]
      · simp [slashParamOrder, notRequiredKey, hp]
    · have hp2 : paramRequired p = false := by
        cases hpv : paramRequired p
        · rfl
        · exact absurd hpv hp
      rw [orderedInsert_append_of_not p _ _ (fun x hx => ?_),
        orderedInsert_cons_of_le p _ (fun x hx => ?_)]
      · simp [List.filter_cons, hp2]
      · have hxr : paramRequired x = false := by
          have := (List.mem_filter.mp hx).2
          simpa using this
        simp [slashParamOrder, notRequiredKey, hp2, hxr]
      · have hxr : paramRequired x = true := (List.mem_filter.mp hx).2
        simp [slashParamOrder, notRequiredKey, hp2, hxr]

/-- Required parameter named a. -/
def paramA : SlashParamSpec := ⟨"a", false, false, false⟩

/-- Optional parameter named b (declared as an Option type). -/
def paramB : SlashParamSpec := ⟨"b", true, false, false⟩

/-- Required parameter named c. -/
def paramC : SlashParamSpec := ⟨"c", false, false, false⟩

/-- C5: the derived slash command option order places all optional parameters
after all required ones regardless of declaration order, preserving the
relative order inside each group (the output is exactly the required
parameters in declaration order followed by the optional parameters in
declaration order); in particular the declaration order a required, b optional,
c required is serialized as a, c, b. -/
theorem claim_C5_optional_parameters_sorted_last :
    (∀ params : List SlashParamSpec,
      generate_slash_parameters params
        = params.filter (fun q => paramRequired q)
            ++ params.filter (fun q => !paramRequired q))
    ∧ generate_slash_parameters [paramA, paramB, paramC]
        = [paramA, paramC, paramB] :=
  ⟨generate_slash_parameters_partition, by decide⟩

/-! ## Autocomplete callback (macros/src/command/slash.rs lines 49 to 99) -/

/-- One interaction data option as delivered with an autocomplete request. -/
structure AutocompleteOptionData where
  name : String
  focused : Bool
  value : Option JsonValue
deriving DecidableEq, Repr

/-- Outcome of the generated autocomplete callback: the
create_autocomplete_response calls performed (each carrying its choice list)
and the callback result. -/
structure AutocompleteOutcome (γ : Type) where
  responseCalls : List (List γ)
  result : Except SlashArgError Unit

/-- Embedding of the autocomplete callback generated by
generate_slash_parameters: find the focused option matching the parameter name
(return Ok with no call when absent); require its value (structure mismatch
error otherwise); extract the partial input, propagating an extraction error
with no transport call; otherwise take at most 25 choices from the
user-supplied callback stream, serialize them, and deliver them in one
create_autocomplete_response call (whose own transport failure is only logged). -/
def autocomplete_callback {α β γ : Type} (paramName : String)
    (options : List AutocompleteOptionData)
    (extractPartialInput : JsonValue → Except SlashArgError α)
    (userCallback : α → List β)
    (toChoiceJson : β → γ) : AutocompleteOutcome γ :=
  match options.find? (fun o => o.focused && o.name == paramName) with
  | none => ⟨[], Except.ok ()⟩
  | some choice =>
    match choice.value with
    | none =>
      ⟨[], Except.error (SlashArgError.CommandStructureMismatch "expected argument value")⟩
    | some jsonValue =>
      match extractPartialInput jsonValue with
      | Except.error e => ⟨[], Except.error e⟩
      | Except.ok partialInput =>
        ⟨[((userCallback partialInput).take 25).map toChoiceJson], Except.ok ()⟩

/-- Modelled from the spec: the autocomplete dispatch boundary is not among the
source files; per the spec autocomplete stage errors are swallowed into no
suggestions and routed to the error reporting boundary, never surfaced to the
end user or to the interaction. Returns the suggestion calls delivered to the
platform together with the internal log entries. -/
def dispatch_autocomplete {γ : Type} (out : AutocompleteOutcome γ) :
    List (List γ) × List String :=
  match out.result with
  | Except.ok _ => (out.responseCalls, [])
  | Except.error _ => (out.responseCalls, ["autocomplete error reported to on_error"])

/-- C8: when the focused partial value cannot be parsed, the autocomplete
callback performs no create_autocomplete_response call (so the platform
receives no suggestions), and the extraction error is only propagated to the
framework error boundary: after dispatch it is logged and the interaction is
given no suggestion response and no user-visible error. -/
theorem claim_C8_unparseable_partial_yields_no_suggestions :
    ∀ {α β γ : Type} (paramName : String)
      (options : List AutocompleteOptionData)
      (extractPartialInput : JsonValue → Except SlashArgError α)
      (userCallback : α → List β) (toChoiceJson : β → γ)
      (choice : AutocompleteOptionData) (v : JsonValue) (e : SlashArgError),
      options.find? (fun o => o.focused && o.name == paramName) = some choice →
      choice.value = some v →
      extractPartialInput v = Except.error e →
      (autocomplete_callback paramName options extractPartialInput userCallback
          toChoiceJson).responseCalls = []
        ∧ (autocomplete_callback paramName options extractPartialInput userCallback
            toChoiceJson).result = Except.error e
        ∧ (dispatch_autocomplete (autocomplete_callback paramName options
            extractPartialInput userCallback toChoiceJson)).1 = [] := by
  intro α β γ paramName options extractPartialInput userCallback toChoiceJson
    choice v e h1 h2 h3
  simp [autocomplete_callback, dispatch_autocomplete, h1, h2, h3]

/-- Witness for C8: a string partial against an integer parameter fails to
parse; the callback makes no response call and the error is only logged. -/
theorem claim_C8_unparseable_partial_yields_no_suggestions_witness :
    (autocomplete_callback "x" [⟨"x", true, some (JsonValue.str "abc")⟩]
        (extract_partial_int i32Target) (fun n => [n]) (fun n => n)).responseCalls = []
      ∧ (autocomplete_callback "x" [⟨"x", true, some (JsonValue.str "abc")⟩]
          (extract_partial_int i32Target) (fun n => [n]) (fun n => n)).result
        = Except.error (SlashArgError.CommandStructureMismatch "expected integer")
      ∧ (dispatch_autocomplete (autocomplete_callback "x"
          [⟨"x", true, some (JsonValue.str "abc")⟩]
          (extract_partial_int i32Target) (fun n => [n]) (fun n => n))).1 = [] :=
  claim_C8_unparseable_partial_yields_no_suggestions "x"
    [⟨"x", true, some (JsonValue.str "abc")⟩] (extract_partial_int i32Target)
    (fun n => [n]) (fun n => n) ⟨"x", true, some (JsonValue.str "abc")⟩
    (JsonValue.str "abc") (SlashArgError.CommandStructureMismatch "expected integer")
    (by rfl) rfl rfl

/-- C9: every create_autocomplete_response call delivered by the autocomplete
callback carries at most 25 candidate choices, no matter how many values the
user-supplied callback produces. -/
theorem claim_C9_autocomplete_at_most_25_choices :
    ∀ {α β γ : Type} (paramName : String)
      (options : List AutocompleteOptionData)
      (extractPartialInput : JsonValue → Except SlashArgError α)
      (userCallback : α → List β) (toChoiceJson : β → γ),
      ((autocomplete_callback paramName options extractPartialInput userCallback
          toChoiceJson).responseCalls.all
        (fun c => decide (c.length ≤ 25))) = true := by
  intro α β γ paramName options extractPartialInput userCallback toChoiceJson
  cases h1 : options.find? (fun o => o.focused && o.name == paramName) with
  | none => simp [autocomplete_callback, h1]
  | some choice =>
    cases h2 : choice.value with
    | none => simp [autocomplete_callback, h1, h2]
    | some v =>
      cases h3 : extractPartialInput v with
      | error e => simp [autocomplete_callback, h1, h2, h3]
      | ok a =>
        simp only [autocomplete_callback, h1, h2, h3, List.all_cons, List.all_nil,
          Bool.and_true, decide_eq_true_eq, List.length_map, List.length_take]
        omega

/-! ## Slash command registration schema (src/structs/command.rs lines 174 to 231) -/

/-- A schema option node (CreateApplicationCommandOption): name, description,
kind, and nested sub options. -/
inductive CommandOptionSchema where
  | node (name : String) (description : String) (kind : String)
      (subOptions : List CommandOptionSchema)

/-- Top level slash command schema (CreateApplicationCommand). -/
structure ApplicationCommandSchema where
  name : String
  description : String
  options : List CommandOptionSchema

/-- A registered command as create_as_slash_command consumes it. Modelled from
the spec where the sources are absent: CommandParameter and its
create_as_slash_command_option method are not among the source files, so a
parameter is represented directly by the result of that method, none for a
slash-incompatible parameter. -/
inductive Command where
  | mk (name : String) (inlineHelp : Option String) (hasSlashAction : Bool)
      (parameters : List (Option CommandOptionSchema))
      (subcommands : List Command)

/-- Name of the command. -/
def Command.name : Command → String
  | .mk n _ _ _ _ => n

/-- Inline help of the command, used as the schema description. -/
def Command.inlineHelp : Command → Option String
  | .mk _ h _ _ _ => h

/-- Whether a slash action is present (slash_action of the source is Some). -/
def Command.hasSlashAction : Command → Bool
  | .mk _ _ a _ _ => a

/-- Results of create_as_slash_command_option for the parameters. -/
def Command.parameters : Command → List (Option CommandOptionSchema)
  | .mk _ _ _ p _ => p

/-- Subcommands of the command. -/
def Command.subcommands : Command → List Command
  | .mk _ _ _ _ s => s

/-- The add_option loop over the parameters with the question mark operator:
every parameter must yield an option, otherwise the whole derivation aborts. -/
def addAllOptions : List (Option CommandOptionSchema) → Option (List CommandOptionSchema)
  | [] => some []
  | none :: _ => none
  | some o :: rest => (addAllOptions rest).map (fun l => o :: l)

/-- Embedding of Command::create_as_subcommand (command.rs lines 177 to 204):
abort when there is no slash action; for a leaf command emit a SubCommand node
whose options are all parameter options, aborting on the first
slash-incompatible parameter; for a command with subcommands emit a
SubCommandGroup node keeping only the subcommands whose own derivation
succeeds. -/
def Command.create_as_subcommand : Command → Option CommandOptionSchema
  | .mk name inlineHelp hasSlash params subs =>
    if hasSlash then
      if subs.isEmpty then
        (addAllOptions params).map (fun opts =>
          CommandOptionSchema.node name (inlineHelp.getD "A slash command")
            "SubCommand" opts)
      else
        some (CommandOptionSchema.node name (inlineHelp.getD "A slash command")
          "SubCommandGroup"
          (subs.attach.filterMap (fun s => Command.create_as_subcommand s.1)))
    else none
decreasing_by
  have := List.sizeOf_lt_of_mem s.2
  simp only [Command.mk.sizeOf_spec]
  omega

/-- Embedding of Command::create_as_slash_command (command.rs lines 208 to 231):
same shape at the top level, producing the registrable command schema. -/
def Command.create_as_slash_command (c : Command) : Option ApplicationCommandSchema :=
  match c with
  | .mk name inlineHelp hasSlash params subs =>
    if hasSlash then
      if subs.isEmpty then
        (addAllOptions params).map (fun opts =>
          ⟨name, inlineHelp.getD "A slash command", opts⟩)
      else
        some ⟨name, inlineHelp.getD "A slash command",
          subs.filterMap Command.create_as_subcommand⟩
    else none

theorem addAllOptions_none_of_mem :
    ∀ (l : List (Option CommandOptionSchema)), none ∈ l → addAllOptions l = none := by
  intro l h
  induction l with
  | nil => cases h
  | cons a rest ih =>
    cases a with
    | none => rfl
    | some o =>
      have hr : none ∈ rest := by
        rcases List.mem_cons.mp h with h1 | h1
        · cases h1
        · exact h1
      simp [addAllOptions, ih hr]

theorem addAllOptions_length :
    ∀ (l : List (Option CommandOptionSchema)) (r : List CommandOptionSchema),
      addAllOptions l = some r → r.length = l.length := by
  intro l
  induction l with
  | nil => intro r h; cases h; rfl
  | cons a rest ih =>
    intro r h
    cases a with
    | none => cases h
    | some o =>
      cases hr : addAllOptions rest with
      | none => rw [addAllOptions, hr] at h; cases h
      | some r2 =>
        rw [addAllOptions, hr] at h
        cases h
        simp [ih r2 hr]

/-- C10: slash schema derivation is all or nothing. create_as_slash_command and
create_as_subcommand return none whenever the command has no slash action; for
a leaf command (no subcommands), a single slash-incompatible parameter makes
the whole derivation return none; and whenever the derivation succeeds for a
leaf command its option list covers every declared parameter (none is silently
omitted). -/
theorem claim_C10_slash_schema_all_or_nothing :
    ∀ (c : Command),
      (c.hasSlashAction = false →
        c.create_as_slash_command = none ∧ c.create_as_subcommand = none)
      ∧ (c.subcommands = [] → none ∈ c.parameters →
          c.create_as_slash_command = none ∧ c.create_as_subcommand = none)
      ∧ (∀ b : ApplicationCommandSchema, c.subcommands = [] →
          c.create_as_slash_command = some b →
          addAllOptions c.parameters = some b.options
            ∧ b.options.length = c.parameters.length) := by
  intro c
  cases c with
  | mk n h a p s =>
    refine ⟨fun ha => ?_, fun hs hp => ?_, fun b hs hb => ?_⟩
    · simp only [Command.hasSlashAction] at ha
      subst ha
      refine ⟨rfl, ?_⟩
      simp [Command.create_as_subcommand]
    · simp only [Command.subcommands] at hs
      subst hs
      simp only [Command.parameters] at hp
      have h0 := addAllOptions_none_of_mem p hp
      cases a <;>
        simp [Command.create_as_slash_command, Command.create_as_subcommand, h0]
    · simp only [Command.subcommands] at hs
      subst hs
      simp only [Command.parameters]
      cases a with
      | false =>
        simp [Command.create_as_slash_command] at hb
      | true =>
        simp only [Command.create_as_slash_command, List.isEmpty_nil, if_true] at hb
        cases hopt : addAllOptions p with
        | none => rw [hopt] at hb; cases hb
        | some opts =>
          have hb2 : b = ApplicationCommandSchema.mk n (h.getD "A slash command") opts := by
            rw [hopt] at hb
            exact (Option.some.inj hb).symm
          subst hb2
          exact ⟨rfl, addAllOptions_length p opts hopt⟩

/-- A sample slash-compatible parameter option. -/
def optX : CommandOptionSchema := CommandOptionSchema.node "x" "d" "Integer" []

/-- Witness for C10 at concrete commands: no slash action gives none, one
incompatible parameter aborts the derivation, and a successful derivation
covers all parameters. -/
theorem claim_C10_slash_schema_all_or_nothing_witness :
    (Command.mk "a" none false [] []).create_as_slash_command = none
      ∧ (Command.mk "b" none true [some optX, none] []).create_as_slash_command = none
      ∧ addAllOptions (Command.mk "c" none true [some optX] []).parameters
          = some (ApplicationCommandSchema.mk "c" "A slash command" [optX]).options :=
  ⟨((claim_C10_slash_schema_all_or_nothing (Command.mk "a" none false [] [])).1 rfl).1,
    ((claim_C10_slash_schema_all_or_nothing
        (Command.mk "b" none true [some optX, none] [])).2.1 rfl
        (by simp [Command.parameters])).1,
    ((claim_C10_slash_schema_all_or_nothing (Command.mk "c" none true [some optX] [])).2.2
        (ApplicationCommandSchema.mk "c" "A slash command" [optX]) rfl rfl).1⟩

/-! ## Admission check chain (spec section 4.2)

The dispatch code that runs the pre-command checks is not among the source
files; only its documented order (examples/framework_usage/commands/checks.rs
module comment and spec section 4.2) is. The chain is therefore modelled from
the spec. -/

/-- Reasons a pre-command check can reject an invocation. -/
inductive CheckFailReason where
  | Ownership
  | Permissions
  | BotPermissions
  | GuildOnly
  | DmOnly
  | NsfwOnly
  | CustomPredicate
deriving DecidableEq, Repr

/-- The admission checks of the chain. -/
inductive CheckStage where
  | ownersOnly
  | requiredPermissions
  | requiredBotPermissions
  | contextRestrictions
  | globalCheck
  | commandCheck
  | cooldown
deriving DecidableEq, Repr

/-- Stages of the whole dispatch pipeline: checks, then argument coercion,
then the action. -/
inductive DispatchStage where
  | check (s : CheckStage)
  | argumentCoercion
  | actionInvocation
deriving DecidableEq, Repr

/-- Outcome of a dispatch. -/
inductive DispatchOutcome where
  | checkFailed (r : CheckFailReason)
  | cooldownActive (remaining : Nat)
  | argumentParseFailure
  | success
deriving DecidableEq, Repr

/-- Admission relevant configuration of a command. -/
structure CheckedCommand where
  ownersOnly : Bool
  requiredPermissions : Nat
  requiredBotPermissions : Nat
  guildOnly : Bool
  dmOnly : Bool
  nsfwOnly : Bool
  hasGlobalCheck : Bool
  hasCommandCheck : Bool
deriving DecidableEq, Repr

/-- Invocation context consulted by the checks; predicate and cooldown
evaluation results are carried as fields. -/
structure InvocationCtx where
  callerIsOwner : Bool
  callerPermissions : Nat
  botPermissions : Nat
  inGuild : Bool
  inNsfwChannel : Bool
  globalCheckPasses : Bool
  commandCheckPasses : Bool
  cooldownRemaining : Nat
  argsParseOk : Bool
deriving DecidableEq, Repr

/-- Permission bit-set superset test: granted holds every required bit. -/
def hasAllBits (granted required : Nat) : Bool :=
  required &&& granted == required

/-- Modelled from the spec: evaluation of one admission check, none meaning the
check passes. Order inside contextRestrictions follows spec section 4.2. -/
def evalCheck (cmd : CheckedCommand) (ctx : InvocationCtx) :
    CheckStage → Option DispatchOutcome
  | .ownersOnly =>
    if cmd.ownersOnly && !ctx.callerIsOwner then
      some (DispatchOutcome.checkFailed CheckFailReason.Ownership)
    else none
  | .requiredPermissions =>
    if !(hasAllBits ctx.callerPermissions cmd.requiredPermissions) then
      some (DispatchOutcome.checkFailed CheckFailReason.Permissions)
    else none
  | .requiredBotPermissions =>
    if !(hasAllBits ctx.botPermissions cmd.requiredBotPermissions) then
      some (DispatchOutcome.checkFailed CheckFailReason.BotPermissions)
    else none
  | .contextRestrictions =>
    if cmd.guildOnly && !ctx.inGuild then
      some (DispatchOutcome.checkFailed CheckFailReason.GuildOnly)
    else if cmd.dmOnly && ctx.inGuild then
      some (DispatchOutcome.checkFailed CheckFailReason.DmOnly)
    else if cmd.nsfwOnly && !ctx.inNsfwChannel then
      some (DispatchOutcome.checkFailed CheckFailReason.NsfwOnly)
    else none
  | .globalCheck =>
    if cmd.hasGlobalCheck && !ctx.globalCheckPasses then
      some (DispatchOutcome.checkFailed CheckFailReason.CustomPredicate)
    else none
  | .commandCheck =>
    if cmd.hasCommandCheck && !ctx.commandCheckPasses then
      some (DispatchOutcome.checkFailed CheckFailReason.CustomPredicate)
    else none
  | .cooldown =>
    if ctx.cooldownRemaining > 0 then
      some (DispatchOutcome.cooldownActive ctx.cooldownRemaining)
    else none

/-- The fixed order of the admission checks. -/
def checkOrder : List CheckStage :=
  [CheckStage.ownersOnly, CheckStage.requiredPermissions,
    CheckStage.requiredBotPermissions, CheckStage.contextRestrictions,
    CheckStage.globalCheck, CheckStage.commandCheck, CheckStage.cooldown]

/-- Run the checks of the given list in order, short-circuiting on the first
failure; returns the stages that were evaluated and the failure, if any. -/
def runCheckList (cmd : CheckedCommand) (ctx : InvocationCtx) :
    List CheckStage → List CheckStage × Option DispatchOutcome
  | [] => ([], none)
  | s :: rest =>
    match evalCheck cmd ctx s with
    | some r => ([s], some r)
    | none =>
      let p := runCheckList cmd ctx rest
      (s :: p.1, p.2)

/-- The admission chain: the checks of checkOrder, run in order. -/
def run_checks (cmd : CheckedCommand) (ctx : InvocationCtx) :
    List CheckStage × Option DispatchOutcome :=
  runCheckList cmd ctx checkOrder

/-- Modelled from the spec: the full dispatch, with the stage trace. Checks run
first; only when all pass does argument coercion run, and only when it
succeeds does the action run. -/
def dispatch (cmd : CheckedCommand) (ctx : InvocationCtx) :
    List DispatchStage × DispatchOutcome :=
  match (run_checks cmd ctx).2 with
  | some r => ((run_checks cmd ctx).1.map DispatchStage.check, r)
  | none =>
    if ctx.argsParseOk then
      ((run_checks cmd ctx).1.map DispatchStage.check
          ++ [DispatchStage.argumentCoercion, DispatchStage.actionInvocation],
        DispatchOutcome.success)
    else
      ((run_checks cmd ctx).1.map DispatchStage.check
          ++ [DispatchStage.argumentCoercion],
        DispatchOutcome.argumentParseFailure)

theorem runCheckList_take (cmd : CheckedCommand) (ctx : InvocationCtx) :
    ∀ l : List CheckStage,
      (runCheckList cmd ctx l).1 = l.take (runCheckList cmd ctx l).1.length := by
  intro l
  induction l with
  | nil => rfl
  | cons s rest ih =>
    cases he : evalCheck cmd ctx s with
    | some r => simp [runCheckList, he]
    | none =>
      simp only [runCheckList, he, List.length_cons, List.take_succ_cons]
      exact congrArg (List.cons s) ih

theorem runCheckList_all_pass (cmd : CheckedCommand) (ctx : InvocationCtx) :
    ∀ l : List CheckStage,
      (runCheckList cmd ctx l).2 = none → (runCheckList cmd ctx l).1 = l := by
  intro l
  induction l with
  | nil => intro h; rfl
  | cons s rest ih =>
    intro h
    cases he : evalCheck cmd ctx s with
    | some r => rw [runCheckList, he] at h ⊢; cases h
    | none =>
      rw [runCheckList, he] at h ⊢
      exact congrArg (List.cons s) (ih h)

/-- C3: the admission checks run in the fixed order ownersOnly,
requiredPermissions, requiredBotPermissions, contextRestrictions, globalCheck,
commandCheck, cooldown, short-circuiting on the first failure: the evaluated
stages are always an order-preserving prefix of that list, all checks run when
none fails, and on a failure the dispatch stops with that failure before any
argument coercion or action invocation. In particular a caller whose
permission bit-set is a strict subset of the required permissions P, on a
command whose ownership check passes, is rejected with
checkFailed Permissions at the second stage and the action is never invoked. -/
theorem claim_C3_check_chain_order_and_permissions :
    ∀ (cmd : CheckedCommand) (ctx : InvocationCtx),
      ((run_checks cmd ctx).1 = checkOrder.take (run_checks cmd ctx).1.length)
      ∧ ((run_checks cmd ctx).2 = none → (run_checks cmd ctx).1 = checkOrder)
      ∧ (∀ r, (run_checks cmd ctx).2 = some r →
          dispatch cmd ctx = ((run_checks cmd ctx).1.map DispatchStage.check, r)
            ∧ DispatchStage.argumentCoercion ∉ (dispatch cmd ctx).1
            ∧ DispatchStage.actionInvocation ∉ (dispatch cmd ctx).1)
      ∧ (∀ P : Nat,
          cmd.requiredPermissions = P →
          ctx.callerPermissions &&& P = ctx.callerPermissions →
          ctx.callerPermissions ≠ P →
          (cmd.ownersOnly = false ∨ ctx.callerIsOwner = true) →
          (run_checks cmd ctx).2
              = some (DispatchOutcome.checkFailed CheckFailReason.Permissions)
            ∧ (run_checks cmd ctx).1
              = [CheckStage.ownersOnly, CheckStage.requiredPermissions]
            ∧ (dispatch cmd ctx).2
              = DispatchOutcome.checkFailed CheckFailReason.Permissions
            ∧ DispatchStage.actionInvocation ∉ (dispatch cmd ctx).1) := by
  intro cmd ctx
  refine ⟨runCheckList_take cmd ctx checkOrder,
    runCheckList_all_pass cmd ctx checkOrder, fun r hr => ?_, fun P hP hsub hne howner => ?_⟩
  · have hd : dispatch cmd ctx = ((run_checks cmd ctx).1.map DispatchStage.check, r) := by
      simp only [dispatch, hr]
    refine ⟨hd, ?_, ?_⟩ <;> rw [hd] <;> intro hmem <;>
      rcases List.mem_map.mp hmem with ⟨s, _, hs⟩ <;> cases hs
  · have howner2 : evalCheck cmd ctx CheckStage.ownersOnly = none := by
      rcases howner with h | h <;> simp [evalCheck, h]
    have hfail : hasAllBits ctx.callerPermissions cmd.requiredPermissions = false := by
      rw [hP]
      cases hbe : hasAllBits ctx.callerPermissions P with
      | false => rfl
      | true =>
        have h2 : (P &&& ctx.callerPermissions == P) = true := hbe
        have h1 : P &&& ctx.callerPermissions = P := eq_of_beq h2
        exact absurd (by rw [← hsub, Nat.land_comm, h1]) hne
    have hperm : evalCheck cmd ctx CheckStage.requiredPermissions
        = some (DispatchOutcome.checkFailed CheckFailReason.Permissions) := by
      simp [evalCheck, hfail]
    have hrc : run_checks cmd ctx
        = ([CheckStage.ownersOnly, CheckStage.requiredPermissions],
            some (DispatchOutcome.checkFailed CheckFailReason.Permissions)) := by
      unfold run_checks checkOrder
      rw [runCheckList, howner2, runCheckList, hperm]
    have hd : dispatch cmd ctx
        = ([DispatchStage.check CheckStage.ownersOnly,
            DispatchStage.check CheckStage.requiredPermissions],
            DispatchOutcome.checkFailed CheckFailReason.Permissions) := by
      unfold dispatch
      rw [hrc]
      rfl
    refine ⟨by rw [hrc], by rw [hrc], by rw [hd], by rw [hd]; decide⟩

/-- Witness for C3 at a concrete command and caller: required permissions are
the bit-set 3, the caller holds only bit 1 (a strict subset), the command is
not owners-only; the invocation is rejected with the Permissions reason and the
action stage never runs. -/
theorem claim_C3_check_chain_order_and_permissions_witness :
    (run_checks ⟨false, 3, 0, false, false, false, false, false⟩
          ⟨false, 1, 0, true, false, true, true, 0, true⟩).2
        = some (DispatchOutcome.checkFailed CheckFailReason.Permissions)
      ∧ (run_checks ⟨false, 3, 0, false, false, false, false, false⟩
            ⟨false, 1, 0, true, false, true, true, 0, true⟩).1
        = [CheckStage.ownersOnly, CheckStage.requiredPermissions]
      ∧ (dispatch ⟨false, 3, 0, false, false, false, false, false⟩
            ⟨false, 1, 0, true, false, true, true, 0, true⟩).2
        = DispatchOutcome.checkFailed CheckFailReason.Permissions
      ∧ DispatchStage.actionInvocation
          ∉ (dispatch ⟨false, 3, 0, false, false, false, false, false⟩
              ⟨false, 1, 0, true, false, true, true, 0, true⟩).1 :=
  (claim_C3_check_chain_order_and_permissions
      ⟨false, 3, 0, false, false, false, false, false⟩
      ⟨false, 1, 0, true, false, true, true, 0, true⟩).2.2.2 3
    rfl (by decide) (by decide) (Or.inl rfl)

/-- C3 counterexample to the universal permissions sentence as stated: on an
owners-only command, a non-owner caller whose permission bit-set 1 is a strict
subset of the required bit-set 3 is rejected by the earlier ownership check,
with reason Ownership rather than Permissions, because the ownership check
precedes the permission check in the fixed order. -/
theorem claim_C3_counterexample_owners_only_masks_permissions :
    (run_checks ⟨true, 3, 0, false, false, false, false, false⟩
          ⟨false, 1, 0, true, false, true, true, 0, true⟩).2
        = some (DispatchOutcome.checkFailed CheckFailReason.Ownership)
      ∧ (run_checks ⟨true, 3, 0, false, false, false, false, false⟩
            ⟨false, 1, 0, true, false, true, true, 0, true⟩).2
          ≠ some (DispatchOutcome.checkFailed CheckFailReason.Permissions)
      ∧ (1 : Nat) &&& 3 = 1 ∧ (1 : Nat) ≠ 3 := by
  refine ⟨?_, ?_, ?_, ?_⟩ <;> decide

end Poise
